import Mathlib

/-
Verification of the cdvl-crawler repository's specification against its code.

This file shallowly embeds the parts of the Python sources that the claims
concern:

  * `src/cdvl_crawler/downloader.py` — range probing
    (`CDVLDownloader._probe_range_support`), partial-file validation
    (`_validate_partial_file`), and the resumable download state machine
    (`download_file`).  Filesystem effects are modelled by an explicit `FS`
    record plus an event trace; server behaviour is an explicit `Env` record.
  * `src/cdvl_crawler/crawler.py` — the ID-sweep loop `_crawl_videos`.
  * `src/cdvl_crawler/utils.py` — `load_config` / `get_default_config` and
    `parse_content_disposition`.
  * `src/cdvl_crawler/exporter.py` — `CDVLExporter.export` and helpers.

Python string primitives (`int()`, `str.split`, `str.strip`,
`urllib.parse.unquote`, `re.search` on the two fixed patterns) are modelled
over `List Char` so that all definitions are executable and kernel-reducible.
-/

/-! ### Python string primitives, modelled over `List Char` -/

/-- The apostrophe character (U+0027). -/
def aposChar : Char := Char.ofNat 39

/-- ASCII whitespace as stripped by Python's `str.strip()` (restricted to the
ASCII range; the sources only ever meet ASCII header values). -/
def pyIsSpace (c : Char) : Bool :=
  c = ' ' || c = '\t' || c = '\n' || c = Char.ofNat 13 || c = Char.ofNat 11 ||
    c = Char.ofNat 12

/-- Model of Python `str.strip()` on a character list. -/
def pyStripWsL (l : List Char) : List Char :=
  ((l.dropWhile pyIsSpace).reverse.dropWhile pyIsSpace).reverse

/-- Numeric value of a run of decimal digits. -/
def digitsVal (l : List Char) : Nat :=
  l.foldl (fun acc c => acc * 10 + (c.toNat - 48)) 0

/-- Parse a non-empty all-digit run, as the core of Python `int()`. -/
def digitsToNat (l : List Char) : Option Nat :=
  if l ≠ [] ∧ l.all (fun c => c.isDigit) then some (digitsVal l) else none

/-- Model of Python `int(s)` restricted to optional sign plus decimal digits
with surrounding whitespace (underscore separators and non-ASCII digits are
outside the data the sources meet).  `none` models a raised `ValueError`. -/
def pyIntL (l : List Char) : Option Int :=
  match pyStripWsL l with
  | '+' :: d => (digitsToNat d).map (fun n => (n : Int))
  | '-' :: d => (digitsToNat d).map (fun n => -(n : Int))
  | d => (digitsToNat d).map (fun n => (n : Int))

/-- Model of Python `int(s)` on a `String`. -/
def pyInt (s : String) : Option Int := pyIntL s.data

/-- Model of Python `s.split(sep)` for a single-character separator: always
returns one more part than there are separators. -/
def splitOnCharL (sep : Char) : List Char → List (List Char)
  | [] => [[]]
  | c :: t =>
    let r := splitOnCharL sep t
    if c = sep then [] :: r
    else
      match r with
      | h :: t2 => (c :: h) :: t2
      | [] => [[c]]

/-! ### `CDVLDownloader._probe_range_support` (downloader.py lines 62-118) -/

/-- Outcome of the probe GET (`Range: bytes=0-0`): either the request raised a
transport exception, or a response with a status, the `Content-Range` header
(defaulted to the empty string as in `headers.get("Content-Range", "")`) and
an optional `Content-Length` header arrived. -/
inductive ProbeOutcome where
  | exn
  | resp (status : Nat) (contentRange : String) (contentLength : Option String)
deriving DecidableEq, Repr

/-- Total size extracted from a `Content-Range` header in the 206 branch of
`_probe_range_support`: if the header contains a slash, take the text after
the last slash; a literal `*` or an unparsable value leaves the size unknown
(the `ValueError` is caught and ignored). -/
def contentRangeTotal (cr : String) : Option Int :=
  let parts := splitOnCharL '/' cr.data
  if 2 ≤ parts.length then
    let totalStr := parts.getLastD []
    if totalStr = ['*'] then none else pyIntL totalStr
  else none

/-- Model of `CDVLDownloader._probe_range_support`.  Status 206 means ranges
are supported, with the total size taken from `Content-Range`; status 200
means ranges are not supported, with `Content-Length` as a size hint (an
empty or absent header, or an unparsable value whose `int()` call raises into
the enclosing `except`, yields `none`); any other status or a transport
exception yields `(false, none)`. -/
def probe_range_support (sessionInit : Bool) (o : ProbeOutcome) :
    Bool × Option Int :=
  if sessionInit = false then (false, none)
  else
    match o with
    | .exn => (false, none)
    | .resp status contentRange contentLength =>
      if status = 206 then (true, contentRangeTotal contentRange)
      else if status = 200 then
        (false,
          match contentLength with
          | none => none
          | some s => if s = "" then none else pyInt s)
      else (false, none)

/-! ### `CDVLDownloader._validate_partial_file` (downloader.py lines 151-189) -/

/-- Content of a partial-download metadata sidecar when it holds a JSON
object, as read back by `_load_partial_metadata`: the `video_id` field
(absent keys make `metadata.get("video_id")` return `None`, modelled by
`none`) and the recorded `content_length`. -/
structure PMeta where
  videoId : Option Int
  contentLength : Option Int
deriving DecidableEq, Repr

/-- A metadata sidecar file on disk.  `valid` holds a JSON object;
`jsonNonObject` is valid JSON that is not an object (such as a list), which
`json.loads` returns and whose later `metadata.get` raises `AttributeError`;
`corrupt` is UTF-8 text that fails `json.loads` (`JSONDecodeError`, which is
caught); `notUtf8` is byte content on which `read_text()` raises
`UnicodeDecodeError`, which the `except (json.JSONDecodeError, OSError)`
clause does not catch. -/
inductive MetaFile where
  | valid (m : PMeta)
  | jsonNonObject
  | corrupt
  | notUtf8
deriving DecidableEq, Repr

/-- Exceptions that escape `_validate_partial_file` into `download_file`'s
outer `except`, aborting the attempt. -/
inductive ValidateErr where
  | attributeError
  | unicodeDecodeError
deriving DecidableEq, Repr

/-- A value returned by `json.loads` on a sidecar: a dict, or some other
JSON value. -/
inductive LoadedMeta where
  | dict (m : PMeta)
  | nonDict
deriving DecidableEq, Repr

/-- Model of `CDVLDownloader._load_partial_metadata`: `none` when the sidecar
is missing or fails to parse as JSON (only `JSONDecodeError`/`OSError` are
caught); a sidecar that is not valid UTF-8 makes `read_text()` raise
`UnicodeDecodeError`, which propagates. -/
def load_partial_metadata : Option MetaFile →
    Except ValidateErr (Option LoadedMeta)
  | none => .ok none
  | some (.valid m) => .ok (some (.dict m))
  | some .jsonNonObject => .ok (some .nonDict)
  | some .corrupt => .ok none
  | some .notUtf8 => .error .unicodeDecodeError

/-- Model of `CDVLDownloader._validate_partial_file`.  The partial file is
given as `none` (missing) or `some size`; the sidecar as an optional
`MetaFile`.  Returns `(is_valid, partial_size)`, or the exception that
escapes: `UnicodeDecodeError` from loading a non-UTF-8 sidecar, or
`AttributeError` from calling `.get` on a loaded value that is not a
dict. -/
def validate_partial_file (partialFile : Option Nat) (metaFile : Option MetaFile)
    (videoId : Int) (expectedLength : Option Int) :
    Except ValidateErr (Bool × Nat) :=
  match partialFile with
  | none => .ok (false, 0)
  | some partialSize =>
    if partialSize = 0 then .ok (false, 0)
    else
      match load_partial_metadata metaFile with
      | .error e => .error e
      | .ok none => .ok (false, 0)
      | .ok (some .nonDict) => .error .attributeError
      | .ok (some (.dict m)) =>
        if m.videoId ≠ some videoId then .ok (false, 0)
        else
          match expectedLength with
          | some el =>
            if el ≤ (partialSize : Int) then .ok (false, 0)
            else .ok (true, partialSize)
          | none => .ok (true, partialSize)

/-- Resume-permission predicate written from the claim's words: the partial
file exists, its size is strictly positive, the sidecar exists and parses to
an object, the sidecar's identifier equals the requested identifier, and
when a total size is known the on-disk size is strictly below it. -/
def resumePermittedSpec (partialFile : Option Nat) (metaFile : Option MetaFile)
    (videoId : Int) (expectedLength : Option Int) : Bool :=
  match partialFile, metaFile with
  | some s, some (.valid m) =>
    decide (0 < s) && (m.videoId == some videoId) &&
      (match expectedLength with
       | some el => decide ((s : Int) < el)
       | none => true)
  | _, _ => false

/-- Validation outcome written from the amended claim's words: a missing or
empty partial file reports invalid with size 0 before the sidecar is ever
read; otherwise a sidecar that is not valid UTF-8 raises
`UnicodeDecodeError` and one holding valid JSON that is not an object raises
`AttributeError` at the identifier lookup, aborting the attempt; in every
remaining case resume is permitted exactly when `resumePermittedSpec` holds,
a failed check reporting invalid with size 0 and a passed one the on-disk
size. -/
def validateOutcomeSpec (pf : Option Nat) (mf : Option MetaFile) (v : Int)
    (el : Option Int) : Except ValidateErr (Bool × Nat) :=
  if pf.getD 0 = 0 then .ok (false, 0)
  else
    match mf with
    | some .notUtf8 => .error .unicodeDecodeError
    | some .jsonNonObject => .error .attributeError
    | _ =>
      if resumePermittedSpec pf mf v el then .ok (true, pf.getD 0)
      else .ok (false, 0)

/-- Counterexample to C1 as stated: a sidecar holding valid JSON that is not
an object does parse as JSON, but `metadata.get("video_id")` then raises
`AttributeError`; a sidecar that is not valid UTF-8 raises
`UnicodeDecodeError` out of `read_text()` (only `JSONDecodeError`/`OSError`
are caught).  At such pairs validation aborts the download attempt instead
of reporting invalid with partial size 0 and forcing a restart from
byte 0. -/
theorem validate_partial_file_raises_not_restarts :
    validate_partial_file (some 5) (some MetaFile.jsonNonObject) 7 none =
      .error .attributeError
    ∧ validate_partial_file (some 5) (some MetaFile.notUtf8) 7 none =
      .error .unicodeDecodeError
    ∧ (Except.error ValidateErr.attributeError :
        Except ValidateErr (Bool × Nat)) ≠ .ok (false, 0) := by
  refine ⟨rfl, rfl, ?_⟩
  intro h
  exact absurd h (by simp)

/-- C1 (amended): for every partial-file/metadata pair on which validation
returns, `_validate_partial_file` permits resuming if and only if the
partial file exists, its size is strictly positive, the sidecar metadata
exists and parses as a JSON object, the object's identifier equals the
requested identifier, and, when an expected total size is known, the
on-disk size is strictly below it; whenever one of these checks fails
without raising, the result is invalid with a reported partial size of 0;
but on a non-empty partial whose sidecar is valid JSON without being an
object, or is not valid UTF-8, validation raises (`AttributeError`,
resp. `UnicodeDecodeError`) and the attempt aborts instead of restarting
from byte 0. -/
theorem validate_partial_file_spec_amended (pf : Option Nat)
    (mf : Option MetaFile) (v : Int) (el : Option Int) :
    validate_partial_file pf mf v el = validateOutcomeSpec pf mf v el := by
  rcases pf with _ | s
  · cases mf with
    | none => rfl
    | some mf => cases mf <;> rfl
  · by_cases hs : s = 0
    · subst hs
      cases mf with
      | none => rfl
      | some mf => cases mf <;> rfl
    · have h0 : 0 < s := Nat.pos_of_ne_zero hs
      rcases mf with _ | (m | _ | _ | _)
      · simp [validate_partial_file, load_partial_metadata,
          resumePermittedSpec, validateOutcomeSpec, hs]
      · by_cases hv : m.videoId = some v
        · rcases el with _ | e
          · simp [validate_partial_file, load_partial_metadata,
              resumePermittedSpec, validateOutcomeSpec, hs, hv, h0]
          · by_cases he : e ≤ (s : Int)
            · simp [validate_partial_file, load_partial_metadata,
                resumePermittedSpec, validateOutcomeSpec, hs, hv, h0, he,
                Int.not_lt.mpr he]
            · simp [validate_partial_file, load_partial_metadata,
                resumePermittedSpec, validateOutcomeSpec, hs, hv, h0, he,
                Int.not_le.mp he]
        · simp [validate_partial_file, load_partial_metadata,
            resumePermittedSpec, validateOutcomeSpec, hs, hv]
      · simp [validate_partial_file, load_partial_metadata,
          resumePermittedSpec, validateOutcomeSpec, hs]
      · simp [validate_partial_file, load_partial_metadata,
          resumePermittedSpec, validateOutcomeSpec, hs]
      · simp [validate_partial_file, load_partial_metadata,
          resumePermittedSpec, validateOutcomeSpec, hs]

/-- C4: a range-support probe answered 206 yields range support with the
total parsed from the text after the slash of `Content-Range` (`*` or an
unparsable value giving an unknown size); a 200 answer yields no range
support with `Content-Length` as the size hint (unknown when absent or
empty); any other status or a transport exception yields no support and an
unknown size; and the concrete probe of the spec's scenario detects a total
of 5000000. -/
theorem probe_range_support_spec :
    probe_range_support true ProbeOutcome.exn = (false, none)
    ∧ (∀ s cr cl, s ≠ 206 → s ≠ 200 →
        probe_range_support true (.resp s cr cl) = (false, none))
    ∧ (∀ cr cl, probe_range_support true (.resp 206 cr cl) =
        (true, contentRangeTotal cr))
    ∧ (∀ cr, probe_range_support true (.resp 200 cr none) = (false, none))
    ∧ (∀ cr s, probe_range_support true (.resp 200 cr (some s)) =
        (false, if s = "" then none else pyInt s))
    ∧ probe_range_support true (.resp 206 "bytes 0-0/5000000" none) =
        (true, some 5000000)
    ∧ contentRangeTotal "bytes 0-0/*" = none
    ∧ contentRangeTotal "bytes 0-0/12x" = none
    ∧ contentRangeTotal "bytes" = none := by
  refine ⟨rfl, ?_, ?_, ?_, ?_, by decide, by decide, by decide, by decide⟩
  · intro s cr cl h206 h200
    simp [probe_range_support, h206, h200]
  · intro cr cl
    simp [probe_range_support]
  · intro cr
    simp [probe_range_support]
  · intro cr s
    simp [probe_range_support]

/-- Witness for C4's theorem: instantiating the other-status branch at a
concrete 404 probe. -/
theorem probe_range_support_spec_witness :
    probe_range_support true (.resp 404 "bytes 0-0/10" none) = (false, none) :=
  probe_range_support_spec.2.1 404 "bytes 0-0/10" none (by decide) (by decide)

/-! ### `CDVLDownloader.download_file` (downloader.py lines 319-556)

The download state machine is embedded over an explicit filesystem record
`FS` and a server-behaviour record `Env`.  File naming is abstracted to the
two partial-file naming schemes the code uses (`.cdvl_partial_<id>.tmp` with
its `.meta` sidecar, and the `<final>.partial` fallback with its
`.partial.meta` sidecar) plus a single final-destination slot; the
`Content-Disposition`-based choice of the final file NAME does not affect any
claim and is not tracked.  Side effects are additionally recorded as an event
trace. -/

/-- The two partial-file naming schemes of `download_file`. -/
inductive PPath where
  | byId
  | fallback
deriving DecidableEq, Repr

/-- Filesystem side effects of one download attempt. -/
inductive Ev where
  | rangeSet (offset : Nat)
  | unlinkPartialFile (p : PPath)
  | unlinkMetaFile (p : PPath)
  | saveMeta (p : PPath)
  | openPartialFile (p : PPath) (append : Bool)
  | unlinkFinal
  | renameFinal (p : PPath)
deriving DecidableEq, Repr

/-- Whether an event deletes a file. -/
def Ev.isUnlink : Ev → Bool
  | .unlinkPartialFile _ => true
  | .unlinkMetaFile _ => true
  | .unlinkFinal => true
  | _ => false

/-- Filesystem state seen by `download_file`: the id-keyed partial file and
sidecar, the fallback-named partial file and sidecar, and the final
destination file.  Partial and final files are `some size` when present. -/
structure FS where
  partialById : Option Nat
  metaById : Option MetaFile
  partialFallback : Option Nat
  metaFallback : Option MetaFile
  finalFile : Option Nat
deriving DecidableEq, Repr

/-- Partial-file slot for a naming scheme. -/
def FS.partialAt (fs : FS) : PPath → Option Nat
  | .byId => fs.partialById
  | .fallback => fs.partialFallback

/-- Metadata slot for a naming scheme. -/
def FS.metaAt (fs : FS) : PPath → Option MetaFile
  | .byId => fs.metaById
  | .fallback => fs.metaFallback

/-- Update a partial-file slot. -/
def FS.setPartialAt (fs : FS) : PPath → Option Nat → FS
  | .byId, v => { fs with partialById := v }
  | .fallback, v => { fs with partialFallback := v }

/-- Update a metadata slot. -/
def FS.setMetaAt (fs : FS) : PPath → Option MetaFile → FS
  | .byId, v => { fs with metaById := v }
  | .fallback, v => { fs with metaFallback := v }

/-- Body of the main GET: the chunk sizes streamed by
`response.content.iter_chunked`, either to completion or until an exception
interrupts the stream. -/
inductive Body where
  | ok (chunks : List Nat)
  | exnAfter (chunks : List Nat)
deriving DecidableEq, Repr

/-- Outcome of the main GET: the request itself raised, or a response with a
status, `Content-Disposition`, optional `Content-Length` and a body. -/
inductive RespOutcome where
  | exn
  | resp (status : Nat) (contentDisposition : String)
      (contentLength : Option String) (body : Body)
deriving DecidableEq, Repr

/-- Server and session behaviour during one call of `download_file`: whether
the session is initialised, the probe outcome, the response to a GET carrying
a `Range` header with positive offset, and the response to a plain GET. -/
structure Env where
  sessionInit : Bool
  probe : ProbeOutcome
  resumeResp : RespOutcome
  fullResp : RespOutcome
deriving Repr

/-- Result of a `download_file` call: the returned boolean, the final
filesystem state and the event trace. -/
structure DLRes where
  success : Bool
  fs : FS
  evs : List Ev
deriving DecidableEq, Repr

/-- The `response_length` computation (`int(response_length_str)` guarded by
truthiness): `none` models the uncaught `ValueError` that aborts the attempt
through the enclosing `except`; `some r` is the parsed optional length. -/
def respLen : Option String → Option (Option Int)
  | none => some none
  | some s => if s = "" then some none else (pyInt s).map some

/-- The `resume_from` offset: nonzero only when resume is enabled, the server
supports ranges, a video id is known, and the id-keyed partial file validates
with positive size.  An exception escaping the validation (raised inside
`download_file`\'s `try`) propagates. -/
def computeResumeFrom (enableResume supportsRanges : Bool) (vid : Option Int)
    (fs : FS) (expectedLength : Option Int) : Except ValidateErr Nat :=
  match vid with
  | none => .ok 0
  | some v =>
    if enableResume && supportsRanges then
      match validate_partial_file fs.partialById fs.metaById v expectedLength with
      | .error e => .error e
      | .ok vr => .ok (if vr.1 && decide (0 < vr.2) then vr.2 else 0)
    else .ok 0

/-- Deletion of the stale id-keyed partial file and sidecar in the 416
branch (`unlink` guarded by existence). -/
def delete416 (fs : FS) : FS × List Ev :=
  let e1 : List Ev :=
    if fs.partialById.isSome then [Ev.unlinkPartialFile PPath.byId] else []
  let e2 : List Ev :=
    if fs.metaById.isSome then [Ev.unlinkMetaFile PPath.byId] else []
  ({ fs with partialById := none, metaById := none }, e1 ++ e2)

/-- The streaming tail of `download_file`, entered once the status checks
pass: parse `Content-Length`, save the sidecar when an id is known, open the
partial file (append exactly when resuming), stream the body, then verify,
rename and clean up; a stream exception returns `False` keeping all files. -/
def streamPhase (vid : Option Int) (resumeFrom : Nat)
    (expectedLength : Option Int) (cl : Option String) (body : Body)
    (fs : FS) (evs : List Ev) : DLRes :=
  match respLen cl with
  | none => ⟨false, fs, evs⟩
  | some responseLength =>
    let totalSize : Option Int :=
      match expectedLength with
      | some e => some e
      | none =>
        match responseLength with
        | some n => some ((resumeFrom : Int) + n)
        | none => none
    let p : PPath :=
      if 0 < resumeFrom then PPath.byId
      else if vid.isSome then PPath.byId else PPath.fallback
    let fs2 : FS :=
      match vid with
      | some v => fs.setMetaAt p (some (.valid ⟨some v, totalSize⟩))
      | none => fs
    let evs2 : List Ev :=
      match vid with
      | some _ => evs ++ [Ev.saveMeta p]
      | none => evs
    let app : Bool := decide (0 < resumeFrom)
    let base : Nat := if 0 < resumeFrom then (fs2.partialAt p).getD 0 else 0
    let evs3 := evs2 ++ [Ev.openPartialFile p app]
    match body with
    | .exnAfter chunks => ⟨false, fs2.setPartialAt p (some (base + chunks.sum)), evs3⟩
    | .ok chunks =>
      let written := base + chunks.sum
      let fs3 := fs2.setPartialAt p (some written)
      let evs4 := evs3 ++ (if fs3.finalFile.isSome then [Ev.unlinkFinal] else [])
      let fs5 : FS := { fs3.setPartialAt p none with finalFile := some written }
      let evs5 := evs4 ++ [Ev.renameFinal p]
      let evs6 := evs5 ++ (if (fs5.metaAt p).isSome then [Ev.unlinkMetaFile p] else [])
      ⟨true, fs5.setMetaAt p none, evs6⟩

/-- The part of `download_file` from the main GET on: send the `Range` header
exactly when the resume offset is positive, then dispatch on the response
status (206 continue the resume, 200 restart from zero, 416 delete the stale
partial artifacts and hand over to the retry continuation, anything else
fail). -/
def afterProbe (env : Env) (vid : Option Int) (resumeFrom : Nat)
    (expectedLength : Option Int) (retry : FS → DLRes) (fs : FS) : DLRes :=
  let evs0 : List Ev :=
    if 0 < resumeFrom then [Ev.rangeSet resumeFrom] else []
  match (if 0 < resumeFrom then env.resumeResp else env.fullResp) with
  | .exn => ⟨false, fs, evs0⟩
  | .resp status _cd cl body =>
    if 0 < resumeFrom then
      if status = 206 then streamPhase vid resumeFrom expectedLength cl body fs evs0
      else if status = 200 then streamPhase vid 0 expectedLength cl body fs evs0
      else if status = 416 then
        let r := retry (delete416 fs).1
        ⟨r.success, r.fs, evs0 ++ (delete416 fs).2 ++ r.evs⟩
      else ⟨false, fs, evs0⟩
    else
      if status ≠ 200 then ⟨false, fs, evs0⟩
      else streamPhase vid 0 expectedLength cl body fs evs0

/-- One call of `download_file`, given a retry continuation for the 416
branch (the source calls itself recursively there with resume disabled). -/
def downloadBody (env : Env) (vid : Option Int) (outputPath : Option String)
    (enableResume : Bool) (retry : FS → DLRes) (fs : FS) : DLRes :=
  if env.sessionInit = false then ⟨false, fs, []⟩
  else
    let pr :=
      if enableResume && vid.isSome then
        probe_range_support env.sessionInit env.probe
      else (false, none)
    match computeResumeFrom enableResume pr.1 vid fs pr.2 with
    | .error _ => ⟨false, fs, []⟩
    | .ok resumeFrom => afterProbe env vid resumeFrom pr.2 retry fs

/-- Model of `CDVLDownloader.download_file`.  With resume enabled, the 416
branch retries once with resume disabled; in the resume-disabled call the
416 branch is unreachable (the offset is 0, so no `Range` header is sent and
the 416 case of the status check cannot be entered), hence the inner retry
continuation is arbitrary and chosen as immediate failure. -/
def download_file (env : Env) (vid : Option Int) (outputPath : Option String)
    (enableResume : Bool) (fs : FS) : DLRes :=
  if enableResume then
    downloadBody env vid outputPath true
      (fun fs2 =>
        downloadBody env vid outputPath false (fun fs3 => ⟨false, fs3, []⟩) fs2)
      fs
  else downloadBody env vid outputPath false (fun fs3 => ⟨false, fs3, []⟩) fs

@[simp] theorem FS.setPartialAt_metaById (fs : FS) (p : PPath) (v : Option Nat) :
    (fs.setPartialAt p v).metaById = fs.metaById := by cases p <;> rfl

@[simp] theorem FS.setPartialAt_metaFallback (fs : FS) (p : PPath) (v : Option Nat) :
    (fs.setPartialAt p v).metaFallback = fs.metaFallback := by cases p <;> rfl

@[simp] theorem FS.setPartialAt_finalFile (fs : FS) (p : PPath) (v : Option Nat) :
    (fs.setPartialAt p v).finalFile = fs.finalFile := by cases p <;> rfl

@[simp] theorem FS.setMetaAt_partialById (fs : FS) (p : PPath) (v : Option MetaFile) :
    (fs.setMetaAt p v).partialById = fs.partialById := by cases p <;> rfl

@[simp] theorem FS.setMetaAt_partialFallback (fs : FS) (p : PPath) (v : Option MetaFile) :
    (fs.setMetaAt p v).partialFallback = fs.partialFallback := by cases p <;> rfl

@[simp] theorem FS.setMetaAt_finalFile (fs : FS) (p : PPath) (v : Option MetaFile) :
    (fs.setMetaAt p v).finalFile = fs.finalFile := by cases p <;> rfl

theorem FS.isSome_partialById_setPartialAt (fs : FS) (p : PPath) (n : Nat)
    (h : fs.partialById.isSome) : ((fs.setPartialAt p (some n)).partialById).isSome := by
  cases p <;> simp [FS.setPartialAt] <;> exact h

theorem FS.isSome_partialFallback_setPartialAt (fs : FS) (p : PPath) (n : Nat)
    (h : fs.partialFallback.isSome) :
    ((fs.setPartialAt p (some n)).partialFallback).isSome := by
  cases p <;> simp [FS.setPartialAt] <;> exact h

theorem FS.isSome_metaById_setMetaAt (fs : FS) (p : PPath) (m : MetaFile)
    (h : fs.metaById.isSome) : ((fs.setMetaAt p (some m)).metaById).isSome := by
  cases p <;> simp [FS.setMetaAt] <;> exact h

theorem FS.isSome_metaFallback_setMetaAt (fs : FS) (p : PPath) (m : MetaFile)
    (h : fs.metaFallback.isSome) : ((fs.setMetaAt p (some m)).metaFallback).isSome := by
  cases p <;> simp [FS.setMetaAt] <;> exact h


/-- A stream-level exception (or an unparsable `Content-Length`) in the
streaming tail fails the attempt, deletes nothing, and leaves every existing
file in place. -/
theorem streamPhase_exnAfter (vid : Option Int) (rf : Nat) (el : Option Int)
    (cl : Option String) (ch : List Nat) (fs : FS) (evs : List Ev) :
    let r := streamPhase vid rf el cl (.exnAfter ch) fs evs
    r.success = false
    ∧ (∀ e ∈ r.evs, e ∈ evs ∨ e.isUnlink = false)
    ∧ (fs.partialById.isSome → r.fs.partialById.isSome)
    ∧ (fs.metaById.isSome → r.fs.metaById.isSome)
    ∧ (fs.partialFallback.isSome → r.fs.partialFallback.isSome)
    ∧ (fs.metaFallback.isSome → r.fs.metaFallback.isSome)
    ∧ r.fs.finalFile = fs.finalFile := by
  rcases hcl : respLen cl with _ | rl
  · simp only [streamPhase, hcl]
    exact ⟨trivial, fun e he => Or.inl he, id, id, id, id, trivial⟩
  · rcases vid with _ | v
    · simp only [streamPhase, hcl]
      refine ⟨trivial, ?_, ?_, ?_, ?_, ?_, by simp⟩
      · intro e he
        simp only [List.mem_append, List.mem_singleton] at he
        rcases he with he | he
        · exact Or.inl he
        · subst he; exact Or.inr rfl
      · intro h; exact FS.isSome_partialById_setPartialAt _ _ _ h
      · intro h; simpa using h
      · intro h; exact FS.isSome_partialFallback_setPartialAt _ _ _ h
      · intro h; simpa using h
    · simp only [streamPhase, hcl]
      refine ⟨trivial, ?_, ?_, ?_, ?_, ?_, by simp⟩
      · intro e he
        simp only [List.mem_append, List.mem_singleton] at he
        rcases he with (he | he) | he
        · exact Or.inl he
        · subst he; exact Or.inr rfl
        · subst he; exact Or.inr rfl
      · intro h
        apply FS.isSome_partialById_setPartialAt
        simpa using h
      · intro h
        simp only [FS.setPartialAt_metaById]
        exact FS.isSome_metaById_setMetaAt _ _ _ h
      · intro h
        apply FS.isSome_partialFallback_setPartialAt
        simpa using h
      · intro h
        simp only [FS.setPartialAt_metaFallback]
        exact FS.isSome_metaFallback_setMetaAt _ _ _ h

/-- C2: a resume attempt answered 416 deletes the stale id-keyed partial file
and its metadata sidecar and then retries the whole operation exactly once
with resume disabled; the attempt's overall outcome is that of the
non-resumed retry. -/
theorem download_file_416_retry
    (env : Env) (v : Int) (out : Option String) (fs : FS)
    (s : Nat) (pm : PMeta) (el : Option Int)
    (cd : String) (cl : Option String) (bd : Body)
    (hs : env.sessionInit = true)
    (hprobe : probe_range_support true env.probe = (true, el))
    (hresume : env.resumeResp = .resp 416 cd cl bd)
    (hpart : fs.partialById = some s) (hs0 : 0 < s)
    (hmeta : fs.metaById = some (.valid pm)) (hvid : pm.videoId = some v)
    (hel : ∀ e, el = some e → (s : Int) < e) :
    download_file env (some v) out true fs =
      { success := (download_file env (some v) out false
          { fs with partialById := none, metaById := none }).success,
        fs := (download_file env (some v) out false
          { fs with partialById := none, metaById := none }).fs,
        evs := Ev.rangeSet s :: Ev.unlinkPartialFile .byId ::
          Ev.unlinkMetaFile .byId :: (download_file env (some v) out false
          { fs with partialById := none, metaById := none }).evs } := by
  have hne : s ≠ 0 := Nat.pos_iff_ne_zero.mp hs0
  have hval : validate_partial_file fs.partialById fs.metaById v el =
      .ok (true, s) := by
    rw [hpart, hmeta]
    rcases el with _ | e
    · simp [validate_partial_file, load_partial_metadata, hne, hvid]
    · have h2 := hel e rfl
      simp [validate_partial_file, load_partial_metadata, hne, hvid,
        not_le.mpr h2]
  have hrf : computeResumeFrom true true (some v) fs el = .ok s := by
    simp [computeResumeFrom, hval, hs0]
  simp only [download_file, downloadBody, afterProbe, hs, if_true, Bool.true_and,
    Option.isSome_some, if_false, Bool.false_eq_true, ite_false, ite_true,
    hprobe, hrf, hs0, if_pos, hresume, delete416, hpart, hmeta]
  simp [hs0, hne]

/-- Witness for C2's theorem at a concrete environment: the probe reports
range support with total 100, the partial holds 5 valid bytes for video 7,
and the resume GET is answered 416. -/
theorem download_file_416_retry_witness :
    download_file ⟨true, .resp 206 "bytes 0-0/100" none, .resp 416 "" none (.ok []),
        .resp 200 "" none (.ok [10])⟩ (some 7) none true
        ⟨some 5, some (.valid ⟨some 7, some 100⟩), none, none, none⟩ =
      { success := (download_file ⟨true, .resp 206 "bytes 0-0/100" none,
          .resp 416 "" none (.ok []), .resp 200 "" none (.ok [10])⟩ (some 7) none false
          ⟨none, none, none, none, none⟩).success,
        fs := (download_file ⟨true, .resp 206 "bytes 0-0/100" none,
          .resp 416 "" none (.ok []), .resp 200 "" none (.ok [10])⟩ (some 7) none false
          ⟨none, none, none, none, none⟩).fs,
        evs := Ev.rangeSet 5 :: Ev.unlinkPartialFile .byId :: Ev.unlinkMetaFile .byId ::
          (download_file ⟨true, .resp 206 "bytes 0-0/100" none,
          .resp 416 "" none (.ok []), .resp 200 "" none (.ok [10])⟩ (some 7) none false
          ⟨none, none, none, none, none⟩).evs } :=
  download_file_416_retry _ 7 none _ 5 ⟨some 7, some 100⟩ (some 100) "" none (.ok [])
    rfl (by decide) rfl rfl (by decide) rfl rfl
    (by intro e he; cases he; decide)

/-- C3: a resume attempt answered 200 (the server ignored the `Range` header)
restarts from offset 0: the download still succeeds, the final file holds
exactly the bytes of the new response body, the partial file is reopened in
truncate mode (never in append mode) and is never deleted, even though a
`Range` header with the stale offset had been sent. -/
theorem download_file_resume_200_restart
    (env : Env) (v : Int) (out : Option String) (fs : FS)
    (s : Nat) (pm : PMeta) (el : Option Int)
    (cd : String) (cl : Option String) (chunks : List Nat) (rl : Option Int)
    (hs : env.sessionInit = true)
    (hprobe : probe_range_support true env.probe = (true, el))
    (hresume : env.resumeResp = .resp 200 cd cl (.ok chunks))
    (hcl : respLen cl = some rl)
    (hpart : fs.partialById = some s) (hs0 : 0 < s)
    (hmeta : fs.metaById = some (.valid pm)) (hvid : pm.videoId = some v)
    (hel : ∀ e, el = some e → (s : Int) < e) :
    (download_file env (some v) out true fs).success = true
    ∧ (download_file env (some v) out true fs).fs.finalFile = some chunks.sum
    ∧ Ev.rangeSet s ∈ (download_file env (some v) out true fs).evs
    ∧ Ev.openPartialFile PPath.byId false ∈ (download_file env (some v) out true fs).evs
    ∧ (∀ q, Ev.openPartialFile q true ∉ (download_file env (some v) out true fs).evs)
    ∧ (∀ q, Ev.unlinkPartialFile q ∉ (download_file env (some v) out true fs).evs) := by
  have hne : s ≠ 0 := Nat.pos_iff_ne_zero.mp hs0
  have hval : validate_partial_file fs.partialById fs.metaById v el =
      .ok (true, s) := by
    rw [hpart, hmeta]
    rcases el with _ | e
    · simp [validate_partial_file, load_partial_metadata, hne, hvid]
    · have h2 := hel e rfl
      simp [validate_partial_file, load_partial_metadata, hne, hvid,
        not_le.mpr h2]
  have hrf : computeResumeFrom true true (some v) fs el = .ok s := by
    simp [computeResumeFrom, hval, hs0]
  have hred : download_file env (some v) out true fs =
      streamPhase (some v) 0 el cl (.ok chunks) fs [Ev.rangeSet s] := by
    simp only [download_file, downloadBody, afterProbe, hs, hprobe, hresume]
    simp [hrf, hs0]
  rw [hred]
  refine ⟨?_, ?_, ?_, ?_, ?_, ?_⟩
  · simp [streamPhase, hcl]
  · simp [streamPhase, hcl]
  · simp [streamPhase, hcl]
  · simp [streamPhase, hcl]
  · intro q
    simp only [streamPhase, hcl]
    split_ifs <;> simp
  · intro q
    simp only [streamPhase, hcl]
    split_ifs <;> simp

/-- Witness for C3's theorem at a concrete environment: a valid 5-byte
partial for video 7, the resume GET answered 200 with a body of 3+4 bytes,
so the final file holds 7 bytes, not 12. -/
theorem download_file_resume_200_restart_witness :
    (download_file ⟨true, .resp 206 "bytes 0-0/100" none,
        .resp 200 "" none (.ok [3, 4]), .exn⟩ (some 7) none true
        ⟨some 5, some (.valid ⟨some 7, some 100⟩), none, none, none⟩).success = true
    ∧ (download_file ⟨true, .resp 206 "bytes 0-0/100" none,
        .resp 200 "" none (.ok [3, 4]), .exn⟩ (some 7) none true
        ⟨some 5, some (.valid ⟨some 7, some 100⟩), none, none, none⟩).fs.finalFile =
        some 7 := by
  have h := download_file_resume_200_restart
    ⟨true, .resp 206 "bytes 0-0/100" none, .resp 200 "" none (.ok [3, 4]), .exn⟩
    7 none ⟨some 5, some (.valid ⟨some 7, some 100⟩), none, none, none⟩
    5 ⟨some 7, some 100⟩ (some 100) "" none [3, 4] none
    rfl (by decide) rfl rfl rfl (by decide) rfl rfl
    (by intro e he; cases he; decide)
  exact ⟨h.1, by simpa using h.2.1⟩

/-- A main-GET outcome that raises during the attempt: either the GET itself
raises, or the stream raises after a status that reaches the streaming phase
(206 or 200). -/
def RespOutcome.raisesDuringAttempt : RespOutcome → Prop
  | .exn => True
  | .resp s _ _ (.exnAfter _) => s = 206 ∨ s = 200
  | .resp _ _ _ (.ok _) => False

theorem evs_unlink_of_stream_exn (vid : Option Int) (rf : Nat) (el : Option Int)
    (cl : Option String) (ch : List Nat) (fs : FS) (evs : List Ev)
    (hevs : ∀ e ∈ evs, e.isUnlink = false) :
    let r := streamPhase vid rf el cl (.exnAfter ch) fs evs
    r.success = false
    ∧ (∀ e ∈ r.evs, e.isUnlink = false)
    ∧ (fs.partialById.isSome → r.fs.partialById.isSome)
    ∧ (fs.metaById.isSome → r.fs.metaById.isSome)
    ∧ (fs.partialFallback.isSome → r.fs.partialFallback.isSome)
    ∧ (fs.metaFallback.isSome → r.fs.metaFallback.isSome)
    ∧ r.fs.finalFile = fs.finalFile := by
  obtain ⟨h1, h2, h3, h4, h5, h6, h7⟩ := streamPhase_exnAfter vid rf el cl ch fs evs
  exact ⟨h1, fun e he => (h2 e he).elim (fun h => hevs e h) id, h3, h4, h5, h6, h7⟩

theorem afterProbe_exception (env : Env) (vid : Option Int) (rf : Nat)
    (el : Option Int) (retry : FS → DLRes) (fs : FS)
    (hr : env.resumeResp.raisesDuringAttempt)
    (hf : env.fullResp.raisesDuringAttempt) :
    let r := afterProbe env vid rf el retry fs
    r.success = false
    ∧ (∀ e ∈ r.evs, e.isUnlink = false)
    ∧ (fs.partialById.isSome → r.fs.partialById.isSome)
    ∧ (fs.metaById.isSome → r.fs.metaById.isSome)
    ∧ (fs.partialFallback.isSome → r.fs.partialFallback.isSome)
    ∧ (fs.metaFallback.isSome → r.fs.metaFallback.isSome)
    ∧ r.fs.finalFile = fs.finalFile := by
  by_cases h0 : 0 < rf
  · rcases henv : env.resumeResp with _ | ⟨st, cd, cl, bd⟩
    · simp [afterProbe, h0, henv, Ev.isUnlink]
    · rw [henv] at hr
      rcases bd with ch | ch
      · simp [RespOutcome.raisesDuringAttempt] at hr
      · simp only [RespOutcome.raisesDuringAttempt] at hr
        have hevs : ∀ e ∈ [Ev.rangeSet rf], e.isUnlink = false := by
          intro e he
          simp only [List.mem_singleton] at he
          subst he
          rfl
        rcases hr with h206 | h200
        · subst h206
          have hgoal : afterProbe env vid rf el retry fs =
              streamPhase vid rf el cl (.exnAfter ch) fs [Ev.rangeSet rf] := by
            simp [afterProbe, h0, henv]
          rw [hgoal]
          exact evs_unlink_of_stream_exn vid rf el cl ch fs _ hevs
        · subst h200
          have hgoal : afterProbe env vid rf el retry fs =
              streamPhase vid 0 el cl (.exnAfter ch) fs [Ev.rangeSet rf] := by
            simp [afterProbe, h0, henv]
          rw [hgoal]
          exact evs_unlink_of_stream_exn vid 0 el cl ch fs _ hevs
  · rcases henv : env.fullResp with _ | ⟨st, cd, cl, bd⟩
    · simp [afterProbe, h0, henv, Ev.isUnlink]
    · rw [henv] at hf
      rcases bd with ch | ch
      · simp [RespOutcome.raisesDuringAttempt] at hf
      · simp only [RespOutcome.raisesDuringAttempt] at hf
        rcases hf with h206 | h200
        · subst h206
          simp [afterProbe, h0, henv, Ev.isUnlink]
        · subst h200
          have hgoal : afterProbe env vid rf el retry fs =
              streamPhase vid 0 el cl (.exnAfter ch) fs [] := by
            simp [afterProbe, h0, henv]
          rw [hgoal]
          exact evs_unlink_of_stream_exn vid 0 el cl ch fs [] (by simp)

theorem downloadBody_exception (env : Env) (vid : Option Int)
    (out : Option String) (er : Bool) (retry : FS → DLRes) (fs : FS)
    (hr : env.resumeResp.raisesDuringAttempt)
    (hf : env.fullResp.raisesDuringAttempt) :
    let r := downloadBody env vid out er retry fs
    r.success = false
    ∧ (∀ e ∈ r.evs, e.isUnlink = false)
    ∧ (fs.partialById.isSome → r.fs.partialById.isSome)
    ∧ (fs.metaById.isSome → r.fs.metaById.isSome)
    ∧ (fs.partialFallback.isSome → r.fs.partialFallback.isSome)
    ∧ (fs.metaFallback.isSome → r.fs.metaFallback.isSome)
    ∧ r.fs.finalFile = fs.finalFile := by
  by_cases hsi : env.sessionInit = false
  · simp [downloadBody, hsi]
  · have hsi2 : env.sessionInit = true := by
      cases h2 : env.sessionInit
      · exact absurd h2 hsi
      · rfl
    intro r
    rw [show r = downloadBody env vid out er retry fs from rfl]
    simp only [downloadBody, hsi2]
    rw [if_neg (by decide : ¬(true = false))]
    rcases hcr : computeResumeFrom er
        (if er && vid.isSome then probe_range_support true env.probe
         else (false, none)).1 vid fs
        (if er && vid.isSome then probe_range_support true env.probe
         else (false, none)).2 with e | rf
    · simp
    · exact afterProbe_exception env vid rf _ retry fs hr hf

/-- C9 (amended): an exception raised by the main GET or during streaming
aborts the attempt with a failure result, deletes no file, and leaves every
existing partial file and metadata sidecar (and the final file) in place; an
exception during probing, by contrast, is caught inside the probe and only
downgrades the attempt to a non-resuming download (see the counterexample
theorem). -/
theorem download_file_exception_keeps_files
    (env : Env) (vid : Option Int) (out : Option String) (er : Bool) (fs : FS)
    (hr : env.resumeResp.raisesDuringAttempt)
    (hf : env.fullResp.raisesDuringAttempt) :
    (download_file env vid out er fs).success = false
    ∧ (∀ e ∈ (download_file env vid out er fs).evs, e.isUnlink = false)
    ∧ (fs.partialById.isSome →
        (download_file env vid out er fs).fs.partialById.isSome)
    ∧ (fs.metaById.isSome →
        (download_file env vid out er fs).fs.metaById.isSome)
    ∧ (fs.partialFallback.isSome →
        (download_file env vid out er fs).fs.partialFallback.isSome)
    ∧ (fs.metaFallback.isSome →
        (download_file env vid out er fs).fs.metaFallback.isSome)
    ∧ (download_file env vid out er fs).fs.finalFile = fs.finalFile := by
  cases er
  · have h := downloadBody_exception env vid out false
      (fun fs3 => ⟨false, fs3, []⟩) fs hr hf
    simpa [download_file] using h
  · have h := downloadBody_exception env vid out true
      (fun fs2 => downloadBody env vid out false (fun fs3 => ⟨false, fs3, []⟩) fs2)
      fs hr hf
    simpa [download_file] using h

/-- Witness for C9's amended theorem: the main GET raises on a filesystem
that holds a 5-byte partial with its sidecar; the attempt fails and the
partial file is still present. -/
theorem download_file_exception_keeps_files_witness :
    (download_file ⟨true, .exn, .exn, .exn⟩ (some 1) none true
      ⟨some 5, some (.valid ⟨some 1, none⟩), none, none, some 3⟩).success = false
    ∧ (download_file ⟨true, .exn, .exn, .exn⟩ (some 1) none true
      ⟨some 5, some (.valid ⟨some 1, none⟩), none, none, some 3⟩).fs.partialById.isSome := by
  have h := download_file_exception_keeps_files ⟨true, .exn, .exn, .exn⟩
    (some 1) none true ⟨some 5, some (.valid ⟨some 1, none⟩), none, none, some 3⟩
    trivial trivial
  exact ⟨h.1, h.2.2.1 rfl⟩

/-- Counterexample to C9 as stated: an exception raised during probing does
not abort the attempt — the probe catches it, the attempt degrades to a
plain GET, and here the attempt then succeeds. -/
theorem download_file_probe_exn_succeeds :
    (download_file ⟨true, .exn, .exn, .resp 200 "" none (.ok [5])⟩ (some 1) none
      true ⟨none, none, none, none, none⟩).success = true := by decide

theorem validate_no_meta (pf : Option Nat) (v : Int) (el : Option Int) :
    validate_partial_file pf none v el = .ok (false, 0) := by
  rcases pf with _ | s
  · rfl
  · simp [validate_partial_file, load_partial_metadata]

theorem streamPhase_no_vid (el : Option Int) (cl : Option String) (bd : Body)
    (fs : FS) (evs : List Ev) :
    let r := streamPhase none 0 el cl bd fs evs
    (∀ p, Ev.saveMeta p ∈ r.evs → Ev.saveMeta p ∈ evs)
    ∧ (∀ o, Ev.rangeSet o ∈ r.evs → Ev.rangeSet o ∈ evs)
    ∧ r.fs.metaById = fs.metaById
    ∧ (fs.metaFallback = none → r.fs.metaFallback = none) := by
  rcases hcl : respLen cl with _ | rl
  · simp [streamPhase, hcl]
  · rcases bd with ch | ch
    · refine ⟨?_, ?_, ?_, ?_⟩
      · intro p
        simp only [streamPhase, hcl]
        split_ifs <;> simp [List.mem_append]
      · intro o
        simp only [streamPhase, hcl]
        split_ifs <;> simp [List.mem_append]
      · simp [streamPhase, hcl, FS.setMetaAt]
      · intro h
        simp [streamPhase, hcl, FS.setMetaAt]
    · refine ⟨?_, ?_, ?_, ?_⟩
      · intro p
        simp only [streamPhase, hcl]
        split_ifs <;> simp [List.mem_append]
      · intro o
        simp only [streamPhase, hcl]
        split_ifs <;> simp [List.mem_append]
      · simp [streamPhase, hcl]
      · intro h
        simp [streamPhase, hcl, h]

/-- C10: a `download_file` call without a video id never writes a metadata
sidecar (no save event, the id-keyed sidecar is untouched, and the
fallback-named sidecar is never created), never sends a `Range` header, and
a partial file lacking a sidecar can never pass partial-file validation on a
later attempt. -/
theorem download_file_no_vid_no_sidecar
    (env : Env) (out : Option String) (er : Bool) (fs : FS) :
    (∀ p, Ev.saveMeta p ∉ (download_file env none out er fs).evs)
    ∧ (∀ o, Ev.rangeSet o ∉ (download_file env none out er fs).evs)
    ∧ (download_file env none out er fs).fs.metaById = fs.metaById
    ∧ (fs.metaFallback = none →
        (download_file env none out er fs).fs.metaFallback = none)
    ∧ (∀ pf v el, validate_partial_file pf none v el = .ok (false, 0)) := by
  have hcore : ∀ (retry : FS → DLRes),
      (∀ p, Ev.saveMeta p ∉ (downloadBody env none out er retry fs).evs)
      ∧ (∀ o, Ev.rangeSet o ∉ (downloadBody env none out er retry fs).evs)
      ∧ (downloadBody env none out er retry fs).fs.metaById = fs.metaById
      ∧ (fs.metaFallback = none →
          (downloadBody env none out er retry fs).fs.metaFallback = none) := by
    intro retry
    by_cases hsi : env.sessionInit = false
    · simp [downloadBody, hsi]
    · have hb : downloadBody env none out er retry fs =
          afterProbe env none 0 none retry fs := by
        simp [downloadBody, hsi, computeResumeFrom]
      rw [hb]
      rcases hresp : env.fullResp with _ | ⟨st, cd, cl, bd⟩
      · simp [afterProbe, hresp]
      · by_cases hst : st = 200
        · subst hst
          have ha : afterProbe env none 0 none retry fs =
              streamPhase none 0 none cl bd fs [] := by
            simp [afterProbe, hresp]
          rw [ha]
          obtain ⟨h1, h2, h3, h4⟩ := streamPhase_no_vid none cl bd fs []
          refine ⟨?_, ?_, h3, h4⟩
          · intro p hp
            simpa using h1 p hp
          · intro o ho
            simpa using h2 o ho
        · simp [afterProbe, hresp, hst]
  cases er
  · have h := hcore (fun fs3 => ⟨false, fs3, []⟩)
    simpa [download_file] using ⟨h.1, h.2.1, h.2.2.1, h.2.2.2,
      fun pf v el => validate_no_meta pf v el⟩
  · have h := hcore
      (fun fs2 => downloadBody env none out false (fun fs3 => ⟨false, fs3, []⟩) fs2)
    simpa [download_file] using ⟨h.1, h.2.1, h.2.2.1, h.2.2.2,
      fun pf v el => validate_no_meta pf v el⟩

/-- Witness for C10's theorem: a concrete no-id call over a server that
serves a 4-byte body; no sidecar save event occurs and the id-keyed sidecar
slot stays untouched. -/
theorem download_file_no_vid_no_sidecar_witness :
    Ev.saveMeta PPath.fallback ∉
      (download_file ⟨true, .exn, .exn, .resp 200 "" none (.ok [4])⟩ none none
        true ⟨none, none, none, none, none⟩).evs
    ∧ (download_file ⟨true, .exn, .exn, .resp 200 "" none (.ok [4])⟩ none none
        true ⟨none, none, none, none, none⟩).fs.metaFallback = none := by
  have h := download_file_no_vid_no_sidecar
    ⟨true, .exn, .exn, .resp 200 "" none (.ok [4])⟩ none true
    ⟨none, none, none, none, none⟩
  exact ⟨h.1 PPath.fallback, h.2.2.2.1 rfl⟩

/-! ### `CDVLCrawler._crawl_videos` (crawler.py lines 302-380)

One fetch is abstracted by its classification (a parsed record appended to
the output log, an empty result, or a failed/raised result); the loop state
tracks the cursor, the `consecutive_failures` counter, the IDs attempted
(tasks created) and the IDs appended to the output log.  The unbounded
`while True` loop is given fuel: every theorem below concerns runs that
reach their stopping condition within the supplied fuel. -/

/-- Classification of one `_fetch_video` result as processed by the sweep
loop: a dict (success), `None` (empty), or an exception (failed). -/
inductive FetchResult where
  | success
  | empty
  | failed
deriving DecidableEq, Repr

/-- Whether a result resets the consecutive-failure counter. -/
def FetchResult.isSuccess : FetchResult → Bool
  | .success => true
  | _ => false

/-- State of the video sweep loop. -/
structure CrawlSt where
  currentId : Nat
  cf : Nat
  attempted : List Nat
  appended : List Nat
deriving DecidableEq, Repr

/-- Result-processing loop of one batch: every empty or failed result
increments `consecutive_failures`, every success resets it to 0 and appends
the record to the output log. -/
def process_batch (fetch : Nat → FetchResult) : List Nat → CrawlSt → CrawlSt
  | [], s => s
  | id :: ids, s =>
    process_batch fetch ids
      (if (fetch id).isSuccess then
         { s with cf := 0, appended := s.appended ++ [id] }
       else { s with cf := s.cf + 1 })

/-- Model of `CDVLCrawler._crawl_videos`: loop while the failure counter is
below the threshold and the cursor has not passed the optional ceiling,
fetching batches of `maxConcurrent` consecutive IDs (shrunk at the ceiling)
and processing all their results before the next check. -/
def crawl_videos (fetch : Nat → FetchResult) (maxConcurrent maxFailures : Nat)
    (maxVideoId : Option Nat) : Nat → CrawlSt → CrawlSt
  | 0, s => s
  | Nat.succ fuel, s =>
    if maxFailures ≤ s.cf then s
    else
      match maxVideoId with
      | some m =>
        if m < s.currentId then s
        else
          let bs := min maxConcurrent (m - s.currentId + 1)
          let ids := List.range' s.currentId bs
          let s2 := process_batch fetch ids { s with attempted := s.attempted ++ ids }
          crawl_videos fetch maxConcurrent maxFailures maxVideoId fuel
            { s2 with currentId := s.currentId + bs }
      | none =>
        let ids := List.range' s.currentId maxConcurrent
        let s2 := process_batch fetch ids { s with attempted := s.attempted ++ ids }
        crawl_videos fetch maxConcurrent maxFailures maxVideoId fuel
          { s2 with currentId := s.currentId + maxConcurrent }

/-- Length of the trailing run of non-success results. -/
def trailingFailures (rs : List FetchResult) : Nat :=
  (rs.reverse.takeWhile (fun r => !r.isSuccess)).length

theorem takeWhile_eq_self_of_all {α} (p : α → Bool) (l : List α)
    (h : l.all p = true) : l.takeWhile p = l := by
  induction l with
  | nil => rfl
  | cons a t ih =>
    simp only [List.all_cons, Bool.and_eq_true] at h
    simp [List.takeWhile_cons, h.1, ih h.2]

theorem takeWhile_append_singleton {α} (p : α → Bool) (l : List α) (a : α) :
    (l ++ [a]).takeWhile p =
      if l.all p then l ++ (if p a then [a] else []) else l.takeWhile p := by
  induction l with
  | nil => simp [List.takeWhile_cons]
  | cons c t ih =>
    by_cases hc : p c
    · by_cases ht : t.all p
      · simp [List.takeWhile_cons, hc, ih, ht]
      · simp [List.takeWhile_cons, hc, ih, ht]
    · simp [List.takeWhile_cons, hc]

theorem trailingFailures_of_all (rs : List FetchResult)
    (h : rs.all (fun x => !x.isSuccess) = true) :
    trailingFailures rs = rs.length := by
  unfold trailingFailures
  rw [takeWhile_eq_self_of_all _ _ (by simpa [List.all_reverse] using h)]
  simp

theorem trailingFailures_cons (r : FetchResult) (rs : List FetchResult) :
    trailingFailures (r :: rs) =
      if rs.all (fun x => !x.isSuccess) then
        (if !r.isSuccess then rs.length + 1 else rs.length)
      else trailingFailures rs := by
  unfold trailingFailures
  rw [List.reverse_cons, takeWhile_append_singleton]
  by_cases ha : rs.all (fun x => !x.isSuccess)
  · have ha2 : rs.reverse.all (fun x => !x.isSuccess) = true := by
      simpa [List.all_reverse] using ha
    by_cases hr : (!r.isSuccess) = true
    · simp [ha, ha2, hr]
    · simp [ha, ha2, hr]
  · have ha2 : ¬ rs.reverse.all (fun x => !x.isSuccess) = true := by
      simpa [List.all_reverse] using ha
    simp [ha, ha2]

theorem process_batch_cf (fetch : Nat → FetchResult) (ids : List Nat)
    (s : CrawlSt) :
    (process_batch fetch ids s).cf =
      trailingFailures (ids.map fetch) +
        (if (ids.map fetch).all (fun r => !r.isSuccess) then s.cf else 0) := by
  induction ids generalizing s with
  | nil => simp [process_batch, trailingFailures]
  | cons id ids ih =>
    simp only [process_batch, List.map_cons]
    rw [trailingFailures_cons]
    by_cases hid : (fetch id).isSuccess
    · rw [if_pos hid, ih]
      by_cases ha : (ids.map fetch).all (fun r => !r.isSuccess)
      · simp [ha, hid, trailingFailures_of_all _ ha]
      · simp [ha, hid]
    · rw [if_neg hid, ih]
      by_cases ha : (ids.map fetch).all (fun r => !r.isSuccess)
      · simp only [Bool.not_eq_true] at hid
        simp [ha, hid, trailingFailures_of_all _ ha]
        omega
      · simp only [Bool.not_eq_true] at hid
        simp [ha, hid]

/-- Counterexample to C6 as stated: the failure threshold is only checked
between batches, so with a batch width of 2 a sweep over all-empty IDs
starting at 10 with threshold 3 still attempts ID 13 (it sits in the same
batch as ID 12). -/
theorem crawl_videos_attempts_id13 :
    (crawl_videos (fun _ => FetchResult.empty) 2 3 none 5
      ⟨10, 0, [], []⟩).attempted = [10, 11, 12, 13] := by decide

/-- C6 (amended): the consecutive-failure counter is incremented on every
empty or failed result and reset to 0 on any success (first three conjuncts:
the loop stops exactly when the check between batches sees the threshold
reached, it also stops as soon as the cursor has passed the optional
ceiling, and one batch's counter equals its trailing run of non-successes,
carrying the incoming counter only when the whole batch failed); with batch
width 1 — so that batch boundaries fall between consecutive IDs — a sweep
with threshold 3 over IDs that return empty from 10 on attempts exactly IDs
10, 11, 12, never attempts ID 13, and appends zero records; with larger
batch widths, IDs sharing a batch with ID 12 may still be attempted. -/
theorem crawl_videos_failure_stop_amended :
    (∀ (fetch : Nat → FetchResult) (mc mf : Nat) (mi : Option Nat)
       (fuel : Nat) (s : CrawlSt),
       mf ≤ s.cf → crawl_videos fetch mc mf mi fuel s = s)
    ∧ (∀ (fetch : Nat → FetchResult) (mc mf m : Nat) (fuel : Nat)
       (s : CrawlSt),
       m < s.currentId → crawl_videos fetch mc mf (some m) fuel s = s)
    ∧ (∀ (fetch : Nat → FetchResult) (ids : List Nat) (s : CrawlSt),
        (process_batch fetch ids s).cf =
          trailingFailures (ids.map fetch) +
            (if (ids.map fetch).all (fun r => !r.isSuccess) then s.cf else 0))
    ∧ (crawl_videos (fun _ => FetchResult.empty) 1 3 none 10
        ⟨10, 0, [], []⟩).attempted = [10, 11, 12]
    ∧ (crawl_videos (fun _ => FetchResult.empty) 1 3 none 10
        ⟨10, 0, [], []⟩).appended = [] := by
  refine ⟨?_, ?_, process_batch_cf, by decide, by decide⟩
  · intro fetch mc mf mi fuel s h
    cases fuel with
    | zero => rfl
    | succ n => simp [crawl_videos, h]
  · intro fetch mc mf m fuel s h
    cases fuel with
    | zero => rfl
    | succ n =>
      by_cases hc : mf ≤ s.cf
      · simp [crawl_videos, hc]
      · simp [crawl_videos, hc, h]

/-- Witness for C6's amended theorem: a loop entered with the counter
already at the threshold stops immediately, and one whose cursor has passed
the ceiling stops immediately. -/
theorem crawl_videos_failure_stop_amended_witness :
    crawl_videos (fun _ => FetchResult.empty) 5 3 none 4 ⟨20, 3, [], []⟩ =
      ⟨20, 3, [], []⟩
    ∧ crawl_videos (fun _ => FetchResult.empty) 5 3 (some 15) 4
        ⟨20, 0, [], []⟩ = ⟨20, 0, [], []⟩ :=
  ⟨crawl_videos_failure_stop_amended.1 (fun _ => FetchResult.empty) 5 3 none 4
    ⟨20, 3, [], []⟩ (by decide),
   crawl_videos_failure_stop_amended.2.1 (fun _ => FetchResult.empty) 5 3 15 4
    ⟨20, 0, [], []⟩ (by decide)⟩

/-! ### `get_default_config` and `load_config` (utils.py lines 120-184)

Configuration values are modelled by a small value type; the three nested
groups (`endpoints`, `headers`, `output`) hold string values in this
repository, so nested dicts are modelled as string-to-string association
lists.  The float default `request_delay = 0.1` is carried by its literal
text (its numeric value plays no role in any claim). -/

/-- A JSON configuration value. -/
inductive CVal where
  | vStr (s : String)
  | vInt (n : Int)
  | vFloat (lit : String)
  | vNone
  | vDict (d : List (String × String))
deriving DecidableEq, Repr

/-- First-match lookup in an association list (Python dict read). -/
def lookupAssoc {α : Type} : List (String × α) → String → Option α
  | [], _ => none
  | (k, v) :: t, q => if k = q then some v else lookupAssoc t q

/-- Python dict assignment: replace the value at an existing key in place,
or append a new key at the end (insertion order). -/
def setKeyA {α : Type} : List (String × α) → String → α → List (String × α)
  | [], k, v => [(k, v)]
  | (k2, v2) :: t, k, v =>
    if k2 = k then (k, v) :: t else (k2, v2) :: setKeyA t k v

/-- Python `dict.update`: assign every entry of `u` into `d` in order. -/
def dictUpdate (d u : List (String × String)) : List (String × String) :=
  u.foldl (fun acc kv => setKeyA acc kv.1 kv.2) d

/-- Model of `get_default_config` (utils.py lines 120-143). -/
def get_default_config : List (String × CVal) :=
  [("endpoints", .vDict
      [("video_base_url", "https://www.cdvl.org/members-section/view-file/"),
       ("dataset_base_url", "https://www.cdvl.org/members-section/search")]),
   ("headers", .vDict
      [("User-Agent",
        "Mozilla/5.0 (Windows NT 10.0; Win64; x64) AppleWebKit/537.36"),
       ("Accept",
        "text/html,application/xhtml+xml,application/xml;q=0.9,*/*;q=0.8"),
       ("Accept-Language", "en-US,en;q=0.5")]),
   ("output", .vDict
      [("videos_file", "videos.jsonl"), ("datasets_file", "datasets.jsonl")]),
   ("start_video_id", .vInt 1),
   ("start_dataset_id", .vInt 1),
   ("max_concurrent_requests", .vInt 5),
   ("max_consecutive_failures", .vInt 1000),
   ("request_delay", .vFloat "0.1"),
   ("max_video_id", .vNone),
   ("max_dataset_id", .vNone)]

/-- One iteration of the merge loop in `load_config`: a user entry whose key
already holds a dict default and whose value is itself a dict is merged
entry-wise (`config[key].update(value)`); every other entry is assigned
outright. -/
def applyEntry (cfg : List (String × CVal)) (kv : String × CVal) :
    List (String × CVal) :=
  match lookupAssoc cfg kv.1, kv.2 with
  | some (.vDict d), .vDict u => setKeyA cfg kv.1 (.vDict (dictUpdate d u))
  | _, _ => setKeyA cfg kv.1 kv.2

/-- Model of `load_config` (utils.py lines 146-184): start from the defaults
and fold the parsed config file over them; with no config file the defaults
are returned unchanged.  No environment variable is read anywhere in this
function. -/
def load_config : Option (List (String × CVal)) → List (String × CVal)
  | none => get_default_config
  | some user => user.foldl applyEntry get_default_config

/-- Merge written from the claim's words: effective configuration is file
over environment over built-in defaults, each present key overriding the
layers below. -/
def claimMergedConfig (fileCfg envCfg : List (String × CVal)) :
    List (String × CVal) :=
  (envCfg ++ fileCfg).foldl (fun acc kv => setKeyA acc kv.1 kv.2)
    get_default_config

/-- Counterexample to C7 as stated: with no config file and an environment
carrying `max_concurrent_requests = 7`, the claim's merge yields 7, but
`load_config` reads no environment variables at all and yields the built-in
default 5. -/
theorem load_config_ignores_environment :
    lookupAssoc (load_config none) "max_concurrent_requests" =
      some (CVal.vInt 5)
    ∧ lookupAssoc
        (claimMergedConfig [] [("max_concurrent_requests", CVal.vInt 7)])
        "max_concurrent_requests" = some (CVal.vInt 7)
    ∧ some (CVal.vInt 5) ≠ some (CVal.vInt 7) := by
  refine ⟨by decide, by decide, by decide⟩

theorem lookupAssoc_setKeyA_self {α : Type} (l : List (String × α)) (k : String)
    (v : α) : lookupAssoc (setKeyA l k v) k = some v := by
  induction l with
  | nil => simp [setKeyA, lookupAssoc]
  | cons kv t ih =>
    obtain ⟨k2, v2⟩ := kv
    by_cases h : k2 = k
    · simp [setKeyA, h, lookupAssoc]
    · simp [setKeyA, h, lookupAssoc, ih]

theorem lookupAssoc_setKeyA_ne {α : Type} (l : List (String × α)) (k k2 : String)
    (v : α) (h : k ≠ k2) :
    lookupAssoc (setKeyA l k v) k2 = lookupAssoc l k2 := by
  induction l with
  | nil => simp [setKeyA, lookupAssoc, h]
  | cons kv t ih =>
    obtain ⟨k3, v3⟩ := kv
    by_cases h3 : k3 = k
    · subst h3
      simp [setKeyA, lookupAssoc, h]
    · by_cases h2 : k3 = k2
      · subst h2
        simp [setKeyA, Ne.symm h, lookupAssoc]
      · simp [setKeyA, h3, lookupAssoc, h2, ih]

theorem lookupAssoc_eq_none {α : Type} (l : List (String × α)) (k : String)
    (h : k ∉ l.map Prod.fst) : lookupAssoc l k = none := by
  induction l with
  | nil => rfl
  | cons kv t ih =>
    obtain ⟨k1, v1⟩ := kv
    simp only [List.map_cons, List.mem_cons] at h
    push_neg at h
    have h1 : ¬ k1 = k := fun hk => h.1 hk.symm
    simp [lookupAssoc, h1, ih h.2]

theorem lookupAssoc_applyEntry_self (cfg : List (String × CVal)) (k : String)
    (v : CVal) :
    lookupAssoc (applyEntry cfg (k, v)) k =
      match lookupAssoc cfg k, v with
      | some (.vDict d), .vDict u => some (.vDict (dictUpdate d u))
      | _, _ => some v := by
  unfold applyEntry
  rcases hc : lookupAssoc cfg k with _ | c
  · cases v <;> simp [hc, lookupAssoc_setKeyA_self]
  · cases c <;> cases v <;> simp [hc, lookupAssoc_setKeyA_self]

theorem lookupAssoc_applyEntry_ne (cfg : List (String × CVal)) (k k2 : String)
    (v : CVal) (h : k ≠ k2) :
    lookupAssoc (applyEntry cfg (k, v)) k2 = lookupAssoc cfg k2 := by
  unfold applyEntry
  rcases hc : lookupAssoc cfg k with _ | c
  · cases v <;> simp [hc, lookupAssoc_setKeyA_ne _ _ _ _ h]
  · cases c <;> cases v <;> simp [hc, lookupAssoc_setKeyA_ne _ _ _ _ h]

theorem foldl_applyEntry_lookup (file : List (String × CVal))
    (cfg : List (String × CVal)) (hnodup : (file.map Prod.fst).Nodup)
    (k : String) :
    lookupAssoc (file.foldl applyEntry cfg) k =
      match lookupAssoc file k, lookupAssoc cfg k with
      | none, d => d
      | some (.vDict u), some (.vDict d) => some (.vDict (dictUpdate d u))
      | some v, _ => some v := by
  induction file generalizing cfg with
  | nil => simp [lookupAssoc]
  | cons kv t ih =>
    obtain ⟨k1, v1⟩ := kv
    simp only [List.map_cons, List.nodup_cons] at hnodup
    obtain ⟨hk1, hnd⟩ := hnodup
    simp only [List.foldl_cons]
    by_cases hkk : k1 = k
    · subst hkk
      have ht : lookupAssoc t k1 = none :=
        lookupAssoc_eq_none t k1 hk1
      rw [ih _ hnd, ht, lookupAssoc_applyEntry_self]
      rcases hcv : lookupAssoc cfg k1 with _ | c
      · cases v1 <;> simp [lookupAssoc]
      · cases c <;> cases v1 <;> simp [lookupAssoc]
    · rw [ih _ hnd, lookupAssoc_applyEntry_ne _ _ _ _ hkk]
      simp [lookupAssoc, hkk]

/-- C7 (amended): the effective configuration merges two layers with
precedence file over built-in defaults: a top-level key present in the
config file overrides the default (keys whose default is a nested dict and
whose file value is a dict are merged entry-wise into the default dict), and
any key absent from the file keeps its built-in default; environment
variables play no part in configuration loading (`load_config` reads none —
they are consulted only for credentials, in `get_credentials`). -/
theorem load_config_file_over_defaults (file : List (String × CVal))
    (hnodup : (file.map Prod.fst).Nodup) (k : String) :
    lookupAssoc (load_config (some file)) k =
      match lookupAssoc file k, lookupAssoc get_default_config k with
      | none, d => d
      | some (.vDict u), some (.vDict d) => some (.vDict (dictUpdate d u))
      | some v, _ => some v :=
  foldl_applyEntry_lookup file get_default_config hnodup k

/-- Witness for C7's amended theorem: a config file overriding
`User-Agent` inside `headers` merges into the default headers dict. -/
theorem load_config_file_over_defaults_witness :
    lookupAssoc (load_config (some [("max_video_id", CVal.vInt 500),
        ("headers", CVal.vDict [("User-Agent", "custom-agent")])])) "headers" =
      some (CVal.vDict [("User-Agent", "custom-agent"),
        ("Accept",
         "text/html,application/xhtml+xml,application/xml;q=0.9,*/*;q=0.8"),
        ("Accept-Language", "en-US,en;q=0.5")]) := by
  have h := load_config_file_over_defaults
    [("max_video_id", CVal.vInt 500),
     ("headers", CVal.vDict [("User-Agent", "custom-agent")])]
    (by decide) "headers"
  rw [h]
  decide

/-! ### `CDVLExporter` (exporter.py)

JSON values are modelled by `JVal` (float literals carried by their rendered
text); `json.loads` of an input line is abstracted by a `parse` function
supplied to the export run, and `json.dumps(..., ensure_ascii=False)` with
its default separators is implemented below, as is the `csv` writer's
`QUOTE_MINIMAL` quoting with the default `\r\n` line terminator. -/

/-- The opening curly brace character. -/
def braceOpenChar : Char := Char.ofNat 123

/-- The closing curly brace character. -/
def braceCloseChar : Char := Char.ofNat 125

/-- A JSON value as held in a parsed JSONL record. -/
inductive JVal where
  | jNull
  | jBool (b : Bool)
  | jInt (n : Int)
  | jFloat (lit : String)
  | jStr (s : String)
  | jArr (xs : List JVal)
  | jObj (fields : List (String × JVal))

/-- Lowercase hexadecimal digit. -/
def hexDigit (n : Nat) : Char :=
  if n < 10 then Char.ofNat (48 + n) else Char.ofNat (87 + n)

/-- JSON string escaping as performed by `json.dumps` with
`ensure_ascii=False`. -/
def jsonEscapeChar (c : Char) : List Char :=
  if c = '"' then ['\\', '"']
  else if c = '\\' then ['\\', '\\']
  else if c = '\n' then ['\\', 'n']
  else if c = Char.ofNat 13 then ['\\', 'r']
  else if c = '\t' then ['\\', 't']
  else if c = Char.ofNat 8 then ['\\', 'b']
  else if c = Char.ofNat 12 then ['\\', 'f']
  else if c.toNat < 32 then
    ['\\', 'u', '0', '0', hexDigit (c.toNat / 16), hexDigit (c.toNat % 16)]
  else [c]

mutual

/-- Model of `json.dumps(value, ensure_ascii=False)` with the default
separators. -/
def jsonDumps : JVal → List Char
  | .jNull => "null".data
  | .jBool true => "true".data
  | .jBool false => "false".data
  | .jInt n => (toString n).data
  | .jFloat lit => lit.data
  | .jStr s => '"' :: (s.data.flatMap jsonEscapeChar) ++ ['"']
  | .jArr xs => '[' :: jsonDumpsArr xs ++ [']']
  | .jObj fs => braceOpenChar :: jsonDumpsObj fs ++ [braceCloseChar]

/-- Array elements joined by a comma and space. -/
def jsonDumpsArr : List JVal → List Char
  | [] => []
  | [x] => jsonDumps x
  | x :: y :: xs => jsonDumps x ++ ',' :: ' ' :: jsonDumpsArr (y :: xs)

/-- Object entries joined by a comma and space, keys quoted. -/
def jsonDumpsObj : List (String × JVal) → List Char
  | [] => []
  | [(k, v)] => jsonDumps (.jStr k) ++ ':' :: ' ' :: jsonDumps v
  | (k, v) :: f :: fs =>
    jsonDumps (.jStr k) ++ ':' :: ' ' :: jsonDumps v ++ ',' :: ' ' ::
      jsonDumpsObj (f :: fs)

end

/-- Whether every element of a JSON array is a string
(`all(isinstance(item, str) for item in value)`). -/
def pyAllStr (xs : List JVal) : Bool :=
  xs.all fun x =>
    match x with
    | .jStr _ => true
    | _ => false

/-- String content of an all-string array element. -/
def strValData : JVal → List Char
  | .jStr s => s.data
  | _ => []

/-- Model of `CDVLExporter._flatten_value` (exporter.py lines 34-61) applied
to `record.get(col)` (absent keys give `None`). -/
def flatten_value : Option JVal → List Char
  | none => []
  | some .jNull => []
  | some (.jBool b) => if b then "true".data else "false".data
  | some (.jInt n) => (toString n).data
  | some (.jFloat lit) => lit.data
  | some (.jStr s) => s.data
  | some (.jArr xs) =>
    if pyAllStr xs then List.intercalate "; ".data (xs.map strValData)
    else jsonDumps (.jArr xs)
  | some (.jObj fs) => jsonDumps (.jObj fs)

/-- Whether the `csv` writer must quote a field under `QUOTE_MINIMAL`: it
contains the delimiter, the quote character, or a line-terminator
character. -/
def csvNeedsQuote (f : List Char) : Bool :=
  f.any fun c => c = ',' || c = '"' || c = '\n' || c = Char.ofNat 13

/-- One CSV field, quoted and quote-doubled when needed. -/
def csvField (f : List Char) : List Char :=
  if csvNeedsQuote f then
    '"' :: (f.flatMap fun c => if c = '"' then ['"', '"'] else [c]) ++ ['"']
  else f

/-- One CSV row: fields joined by commas, terminated by the writer's default
`\r\n`. -/
def csvRow (fields : List (List Char)) : List Char :=
  List.intercalate [','] (fields.map csvField) ++ [Char.ofNat 13, '\n']

/-- Preferred column order of `_get_all_columns` (exporter.py lines 77-89). -/
def preferredOrder : List String :=
  ["id", "url", "title", "content_type", "filename", "file_size",
   "paragraphs", "links", "media", "tables_count", "extracted_at"]

/-- Model of `CDVLExporter._get_all_columns`: the preferred columns followed
by any further record keys in first-seen order, filtered to the keys that
actually occur in some record. -/
def get_all_columns (records : List (List (String × JVal))) : List String :=
  let columnsSeen := records.foldl
    (fun acc r => r.foldl
      (fun acc2 kv => if acc2.contains kv.1 then acc2 else acc2 ++ [kv.1])
      acc)
    preferredOrder
  columnsSeen.filter fun c => records.any fun r => (r.map Prod.fst).contains c

/-- Model of `CDVLExporter.export` (exporter.py lines 107-167) as a function
from the input file's lines (`none` models a missing input file), the column
selection and the pre-existing output-file content to the new output-file
content plus the returned boolean.  The output file is opened in `"w"` mode,
so a successful run replaces any previous content; failure paths return
before the output file is opened, leaving it untouched. -/
def exportRun (parse : String → Option (List (String × JVal)))
    (inputFile : Option (List String)) (columns : Option (List String))
    (prevOut : Option (List Char)) : Option (List Char) × Bool :=
  match inputFile with
  | none => (prevOut, false)
  | some lines =>
    let records := lines.filterMap fun l =>
      let t := pyStripWsL l.data
      if t.isEmpty then none else parse (String.mk t)
    if records.isEmpty then (prevOut, false)
    else
      let cols :=
        match columns with
        | some c => if c.isEmpty then get_all_columns records else c
        | none => get_all_columns records
      let header := csvRow (cols.map String.data)
      let rows := records.map fun r =>
        csvRow (cols.map fun c => flatten_value (lookupAssoc r c))
      (some (header ++ rows.flatten), true)

/-- C8: CSV export is deterministic and idempotent — for every input file,
column selection (including the default of all columns) and prior
output-file content, running export a second time over the first run's
output state yields exactly the same output bytes and result, because a
successful export computes its output from the input and columns alone and
overwrites the output file. -/
theorem export_idempotent (parse : String → Option (List (String × JVal)))
    (inputFile : Option (List String)) (columns : Option (List String))
    (prevOut : Option (List Char)) :
    exportRun parse inputFile columns
        (exportRun parse inputFile columns prevOut).1 =
      exportRun parse inputFile columns prevOut := by
  rcases inputFile with _ | lines
  · rfl
  · simp only [exportRun]
    split <;> rfl

/-! ### `parse_content_disposition` (utils.py lines 338-368)

The function lowercases nothing itself but uses two `re.IGNORECASE`
searches; the two fixed regular expressions are implemented directly as
leftmost-match searches over `List Char`, including the one backtracking
step the first pattern needs (its alternation).  `urllib.parse.unquote` is
modelled by percent-decoding to bytes followed by UTF-8 decoding; on
percent-data that is not valid UTF-8 Python inserts replacement characters,
while this model returns the input unchanged — every claim below stays
within validly decodable inputs. -/

/-- UTF-8 encoding of one character. -/
def utf8EncodeChar (c : Char) : List Nat :=
  let n := c.toNat
  if n < 128 then [n]
  else if n < 2048 then [192 + n / 64, 128 + n % 64]
  else if n < 65536 then
    [224 + n / 4096, 128 + (n / 64) % 64, 128 + n % 64]
  else
    [240 + n / 262144, 128 + (n / 4096) % 64, 128 + (n / 64) % 64,
     128 + n % 64]

/-- Whether a code point is a valid, non-surrogate scalar value. -/
def validScalar (n : Nat) : Bool :=
  n < 55296 || (57344 ≤ n && n < 1114112)

/-- UTF-8 decoding of a byte list; `none` on malformed input. -/
def utf8Decode : List Nat → Option (List Char)
  | [] => some []
  | b :: bs =>
    if h1 : b < 128 then (utf8Decode bs).map (Char.ofNat b :: ·)
    else if 192 ≤ b ∧ b < 224 then
      match bs with
      | b2 :: bs2 =>
        if 128 ≤ b2 ∧ b2 < 192 then
          let n := (b - 192) * 64 + (b2 - 128)
          if 128 ≤ n then (utf8Decode bs2).map (Char.ofNat n :: ·) else none
        else none
      | [] => none
    else if 224 ≤ b ∧ b < 240 then
      match bs with
      | b2 :: b3 :: bs2 =>
        if (128 ≤ b2 ∧ b2 < 192) ∧ (128 ≤ b3 ∧ b3 < 192) then
          let n := (b - 224) * 4096 + (b2 - 128) * 64 + (b3 - 128)
          if 2048 ≤ n ∧ validScalar n then
            (utf8Decode bs2).map (Char.ofNat n :: ·)
          else none
        else none
      | _ => none
    else if 240 ≤ b ∧ b < 245 then
      match bs with
      | b2 :: b3 :: b4 :: bs2 =>
        if (128 ≤ b2 ∧ b2 < 192) ∧ (128 ≤ b3 ∧ b3 < 192) ∧
            (128 ≤ b4 ∧ b4 < 192) then
          let n := (b - 240) * 262144 + (b2 - 128) * 4096 + (b3 - 128) * 64 +
            (b4 - 128)
          if 65536 ≤ n ∧ validScalar n then
            (utf8Decode bs2).map (Char.ofNat n :: ·)
          else none
        else none
      | _ => none
    else none

/-- Hexadecimal value of one character, if any. -/
def hexVal (c : Char) : Option Nat :=
  if '0' ≤ c ∧ c ≤ '9' then some (c.toNat - 48)
  else if 'a' ≤ c ∧ c ≤ 'f' then some (c.toNat - 87)
  else if 'A' ≤ c ∧ c ≤ 'F' then some (c.toNat - 55)
  else none

/-- Percent-decode a character list to bytes: `%hh` becomes the byte `hh`,
every other character contributes its UTF-8 bytes (a `%` not followed by two
hexadecimal digits stays literal, as in `urllib.parse.unquote`). -/
def unquoteBytes : List Char → List Nat
  | [] => []
  | '%' :: a :: b :: rest =>
    match hexVal a, hexVal b with
    | some ha, some hb => (ha * 16 + hb) :: unquoteBytes rest
    | _, _ => utf8EncodeChar '%' ++ unquoteBytes (a :: b :: rest)
  | c :: rest => utf8EncodeChar c ++ unquoteBytes rest

/-- Model of `urllib.parse.unquote` on a character list. -/
def pyUnquoteL (l : List Char) : List Char :=
  match utf8Decode (unquoteBytes l) with
  | some cs => cs
  | none => l

/-- Characters removed from both ends by `.strip("\"'")`. -/
def isQuoteOrApos (c : Char) : Bool :=
  c = '"' || c = aposChar

/-- Model of Python `.strip("\"'")`. -/
def pyStripQuotesL (l : List Char) : List Char :=
  ((l.dropWhile isQuoteOrApos).reverse.dropWhile isQuoteOrApos).reverse

/-- ASCII lowercasing, as far as `re.IGNORECASE` matters for the two ASCII
patterns used here. -/
def lowerChar (c : Char) : Char :=
  if 'A' ≤ c ∧ c ≤ 'Z' then Char.ofNat (c.toNat + 32) else c

/-- Match a literal pattern case-insensitively at the head, returning the
rest of the input on success. -/
def matchCI : List Char → List Char → Option (List Char)
  | [], l => some l
  | _ :: _, [] => none
  | p :: ps, c :: cs =>
    if lowerChar p = lowerChar c then matchCI ps cs else none

/-- Whether the first list occurs literally at the head of the second. -/
def isPrefixList : List Char → List Char → Bool
  | [], _ => true
  | _ :: _, [] => false
  | a :: as, b :: bs => a == b && isPrefixList as bs

/-- Model of Python's case-sensitive substring test (`sub in s`). -/
def containsSub (needle : List Char) : List Char → Bool
  | [] => needle.isEmpty
  | c :: t => isPrefixList needle (c :: t) || containsSub needle t

/-- A character the capture group of `filename="?([^";\n]+)"?` accepts. -/
def rx2Body (c : Char) : Bool :=
  !(c == '"' || c == ';' || c == '\n')

/-- Attempt of the second pattern, `filename="?([^";\n]+)"?`, at one
position, returning the capture group: after the literal, an optional
opening quote, then a maximal non-empty run of allowed characters (when the
run after a consumed quote is empty the optional quote backtracks, but the
quote itself is excluded from the group, so the match fails). -/
def rx2At (l : List Char) : Option (List Char) :=
  match matchCI "filename=".data l with
  | none => none
  | some rest =>
    match rest with
    | '"' :: r2 =>
      let g := r2.takeWhile rx2Body
      if g.isEmpty then none else some g
    | _ =>
      let g := rest.takeWhile rx2Body
      if g.isEmpty then none else some g

/-- Leftmost search of the second pattern. -/
def searchRx2 : List Char → Option (List Char)
  | [] => none
  | c :: t =>
    match rx2At (c :: t) with
    | some g => some g
    | none => searchRx2 t

/-- The `UTF-8''` marker of the first alternative of the RFC 5987 pattern. -/
def rfc5987Marker : List Char := "UTF-8".data ++ [aposChar, aposChar]

/-- The trailing `(.+)` group: a maximal non-empty run of non-newline
characters. -/
def rx1Group (rest : List Char) : Option (List Char) :=
  let g := rest.takeWhile fun c => !(c == '\n')
  if g.isEmpty then none else some g

/-- The second alternative `[^']*'[^']*'` of the RFC 5987 pattern: skip to
and over two apostrophes, then capture the rest of the line. -/
def rx1AltBranch (rest : List Char) : Option (List Char) :=
  match rest.dropWhile (fun c => !(c == aposChar)) with
  | _ :: r2 =>
    match r2.dropWhile (fun c => !(c == aposChar)) with
    | _ :: r4 => rx1Group r4
    | [] => none
  | [] => none

/-- Attempt of the first pattern,
`filename\*=(?:UTF-8''|[^']*'[^']*')(.+)`, at one position: the `UTF-8''`
alternative is tried first and the engine backtracks to the second
alternative when the trailing group fails. -/
def rx1At (l : List Char) : Option (List Char) :=
  match matchCI "filename*=".data l with
  | none => none
  | some rest =>
    match matchCI rfc5987Marker rest with
    | some rest2 =>
      match rx1Group rest2 with
      | some g => some g
      | none => rx1AltBranch rest
    | none => rx1AltBranch rest

/-- Leftmost search of the first pattern. -/
def searchRx1 : List Char → Option (List Char)
  | [] => none
  | c :: t =>
    match rx1At (c :: t) with
    | some g => some g
    | none => searchRx1 t

/-- Core of `parse_content_disposition` on the header characters: if the
header contains `filename*=` the RFC 5987 pattern is searched and a match is
returned percent-decoded and then stripped of quotes/apostrophes; otherwise
(or when that search fails) a `filename=` header is searched and a match is
stripped first and percent-decoded second. -/
def parseCDL (l : List Char) : Option (List Char) :=
  let r1 :=
    if containsSub "filename*=".data l then
      (searchRx1 l).map fun g => pyStripQuotesL (pyUnquoteL g)
    else none
  match r1 with
  | some f => some f
  | none =>
    if containsSub "filename=".data l then
      (searchRx2 l).map fun g => pyUnquoteL (pyStripQuotesL g)
    else none

/-- Model of `parse_content_disposition` (utils.py lines 338-368): an empty
header yields no filename (`if not content_disp`), otherwise the regular
expressions are searched as in `parseCDL`. -/
def parse_content_disposition (cd : String) : Option String :=
  if cd = "" then none else (parseCDL cd.data).map String.mk

theorem matchCI_ne_head (p c : Char) (ps cs : List Char)
    (h : lowerChar p ≠ lowerChar c) : matchCI (p :: ps) (c :: cs) = none := by
  simp [matchCI, h]

theorem matchCI_append (p rest : List Char) :
    matchCI p (p ++ rest) = some rest := by
  induction p with
  | nil => rfl
  | cons c t ih => simp [matchCI, ih]

theorem mem_of_isPrefixList (nd : List Char) :
    ∀ l : List Char, isPrefixList nd l = true → ∀ c ∈ nd, c ∈ l := by
  induction nd with
  | nil => intro l _ c hc; cases hc
  | cons a as ih =>
    intro l h c hc
    cases l with
    | nil => simp [isPrefixList] at h
    | cons b bs =>
      simp only [isPrefixList, Bool.and_eq_true, beq_iff_eq] at h
      rcases List.mem_cons.mp hc with rfl | hc
      · exact h.1 ▸ List.mem_cons_self _ _
      · exact List.mem_cons_of_mem _ (ih bs h.2 c hc)

theorem mem_of_containsSub (nd : List Char) :
    ∀ l : List Char, containsSub nd l = true → ∀ c ∈ nd, c ∈ l := by
  intro l
  induction l with
  | nil =>
    intro h c hc
    simp only [containsSub, List.isEmpty_iff] at h
    subst h
    cases hc
  | cons b t ih =>
    intro h c hc
    simp only [containsSub, Bool.or_eq_true] at h
    rcases h with h | h
    · exact mem_of_isPrefixList nd (b :: t) h c hc
    · exact List.mem_cons_of_mem _ (ih h c hc)

theorem isPrefixList_self_append (nd rest : List Char) :
    isPrefixList nd (nd ++ rest) = true := by
  induction nd with
  | nil => rfl
  | cons c t ih => simp [isPrefixList, ih]

theorem containsSub_of_head (nd l : List Char) (h : isPrefixList nd l = true) :
    containsSub nd l = true := by
  cases l with
  | nil =>
    cases nd with
    | nil => rfl
    | cons a as => simp [isPrefixList] at h
  | cons c t => simp [containsSub, h]

theorem containsSub_append_left (nd l1 l2 : List Char)
    (h : containsSub nd l2 = true) : containsSub nd (l1 ++ l2) = true := by
  induction l1 with
  | nil => exact h
  | cons c t ih => simp [containsSub, ih]

theorem searchRx2_append_skip (pre rest : List Char)
    (h : ∀ c ∈ pre, lowerChar c ≠ 'f') :
    searchRx2 (pre ++ rest) = searchRx2 rest := by
  induction pre with
  | nil => rfl
  | cons c t ih =>
    have hc : lowerChar 'f' ≠ lowerChar c := by
      have := h c (List.mem_cons_self c t)
      simpa [lowerChar] using fun he => this he.symm
    have hat : rx2At (c :: (t ++ rest)) = none := by
      unfold rx2At
      rw [show ("filename=".data : List Char) =
        'f' :: "ilename=".data from rfl, matchCI_ne_head _ _ _ _ hc]
    rw [List.cons_append, searchRx2, hat]
    exact ih fun x hx => h x (List.mem_cons_of_mem _ hx)

theorem searchRx1_append_skip (pre rest : List Char)
    (h : ∀ c ∈ pre, lowerChar c ≠ 'f') :
    searchRx1 (pre ++ rest) = searchRx1 rest := by
  induction pre with
  | nil => rfl
  | cons c t ih =>
    have hc : lowerChar 'f' ≠ lowerChar c := by
      have := h c (List.mem_cons_self c t)
      simpa [lowerChar] using fun he => this he.symm
    have hat : rx1At (c :: (t ++ rest)) = none := by
      unfold rx1At
      rw [show ("filename*=".data : List Char) =
        'f' :: "ilename*=".data from rfl, matchCI_ne_head _ _ _ _ hc]
    rw [List.cons_append, searchRx1, hat]
    exact ih fun x hx => h x (List.mem_cons_of_mem _ hx)

theorem searchRx2_of_head (l g : List Char) (h : rx2At l = some g)
    (hne : l ≠ []) : searchRx2 l = some g := by
  cases l with
  | nil => exact absurd rfl hne
  | cons c t => simp [searchRx2, h]

theorem searchRx1_of_head (l g : List Char) (h : rx1At l = some g)
    (hne : l ≠ []) : searchRx1 l = some g := by
  cases l with
  | nil => exact absurd rfl hne
  | cons c t => simp [searchRx1, h]

theorem stringMk_cons_ne_empty (c : Char) (l : List Char) :
    String.mk (c :: l) ≠ "" := by
  intro h
  have := congrArg String.data h
  simp at this

theorem stringData_mk (l : List Char) : (String.mk l).data = l := rfl

theorem rx2At_quoted (N : List Char) (hne : N ≠ [])
    (hall : N.all rx2Body = true) :
    rx2At ("filename=".data ++ ('"' :: (N ++ ['"']))) = some N := by
  unfold rx2At
  have ht : (N ++ ['"']).takeWhile rx2Body = N := by
    rw [takeWhile_append_singleton]
    simp [hall, rx2Body]
  simp only [matchCI_append, ht]
  simp [List.isEmpty_iff, hne]

theorem rx1At_rfc5987 (V : List Char) (hne : V ≠ [])
    (hnl : ∀ c ∈ V, c ≠ '\n') :
    rx1At ("filename*=".data ++ (rfc5987Marker ++ V)) = some V := by
  unfold rx1At
  have hg : rx1Group V = some V := by
    unfold rx1Group
    have hv : V.takeWhile (fun c => !(c == '\n')) = V := by
      apply takeWhile_eq_self_of_all
      rw [List.all_eq_true]
      intro c hc
      simp [hnl c hc]
    simp [hv, List.isEmpty_iff, hne]
  simp only [matchCI_append, hg]

theorem parseCDL_quoted (N : List Char) (hne : N ≠ [])
    (hok : ∀ c ∈ N, c ≠ '"' ∧ c ≠ ';' ∧ c ≠ '\n' ∧ c ≠ '*') :
    parseCDL ("attachment; filename=".data ++ ('"' :: (N ++ ['"']))) =
      some (pyUnquoteL (pyStripQuotesL N)) := by
  set l : List Char := "attachment; filename=".data ++ ('"' :: (N ++ ['"']))
    with hl
  have hsplit : l = "attachment; ".data ++
      ("filename=".data ++ ('"' :: (N ++ ['"']))) := by
    rw [hl, show ("attachment; filename=".data : List Char) =
      "attachment; ".data ++ "filename=".data from rfl, List.append_assoc]
  have hstar_not : ¬ ('*' ∈ l) := by
    intro h
    rw [hl] at h
    rcases List.mem_append.mp h with h2 | h2
    · revert h2
      decide
    · rcases List.mem_cons.mp h2 with h3 | h3
      · exact absurd h3 (by decide)
      · rcases List.mem_append.mp h3 with h4 | h4
        · exact (hok _ h4).2.2.2 rfl
        · exact absurd h4 (by decide)
  have hcont1 : containsSub "filename*=".data l = false := by
    by_contra hcc
    have hcc2 : containsSub "filename*=".data l = true := by
      revert hcc
      cases containsSub "filename*=".data l <;> simp
    exact hstar_not (mem_of_containsSub _ l hcc2 '*' (by decide))
  have hcont2 : containsSub "filename=".data l = true := by
    rw [hsplit]
    exact containsSub_append_left _ _ _
      (containsSub_of_head _ _ (isPrefixList_self_append _ _))
  have hall : N.all rx2Body = true := by
    rw [List.all_eq_true]
    intro c hc
    simp [rx2Body, (hok c hc).1, (hok c hc).2.1, (hok c hc).2.2.1]
  have hsearch : searchRx2 l = some N := by
    rw [hsplit, searchRx2_append_skip _ _ (by decide)]
    exact searchRx2_of_head _ _ (rx2At_quoted N hne hall) (by simp)
  unfold parseCDL
  rw [hcont1, hcont2, hsearch]
  rfl

theorem parseCDL_rfc5987 (V : List Char) (hne : V ≠ [])
    (hnl : ∀ c ∈ V, c ≠ '\n') :
    parseCDL ("attachment; filename*=UTF-8".data ++ aposChar :: aposChar :: V) =
      some (pyStripQuotesL (pyUnquoteL V)) := by
  set l : List Char :=
    "attachment; filename*=UTF-8".data ++ aposChar :: aposChar :: V with hl
  have hsplit : l = "attachment; ".data ++
      ("filename*=".data ++ (rfc5987Marker ++ V)) := by
    rw [hl, show ("attachment; filename*=UTF-8".data : List Char) =
      ("attachment; ".data ++ "filename*=".data) ++ "UTF-8".data from rfl]
    simp [rfc5987Marker, List.append_assoc]
  have hcont1 : containsSub "filename*=".data l = true := by
    rw [hsplit]
    exact containsSub_append_left _ _ _
      (containsSub_of_head _ _ (isPrefixList_self_append _ _))
  have hsearch : searchRx1 l = some V := by
    rw [hsplit, searchRx1_append_skip _ _ (by decide)]
    exact searchRx1_of_head _ _ (rx1At_rfc5987 V hne hnl) (by simp)
  unfold parseCDL
  rw [hcont1, hsearch]
  rfl

/-- Counterexample to C5 as stated: `attachment; filename="foo;bar.txt"` is a
valid Content-Disposition header in the quoted `filename=` form (a
quoted-string may contain a semicolon), but the parser's capture group stops
at the semicolon and returns `foo` instead of the decoded, unquoted filename
`foo;bar.txt`. -/
theorem parse_content_disposition_semicolon_truncated :
    parse_content_disposition "attachment; filename=\"foo;bar.txt\"" =
      some "foo"
    ∧ some ("foo" : String) ≠ some ("foo;bar.txt" : String) :=
  ⟨by decide, by decide⟩

/-- C5 (amended): for quoted `filename="N"` headers whose filename `N` is
non-empty and contains no double quote, semicolon, newline or asterisk, the
parser returns `N` percent-decoded and stripped of surrounding
quote/apostrophe characters; for RFC 5987 headers `filename*=UTF-8''V` whose
value `V` is non-empty, free of newlines and the final parameter on the
line, it returns `V` percent-decoded and stripped of surrounding
quote/apostrophe characters; an empty header yields no filename.  (Quoted
filenames containing `";\n` are truncated at the first such character, and
percent sequences in the quoted form are decoded as well — see the
counterexample.) -/
theorem parse_content_disposition_amended :
    (∀ N : List Char, N ≠ [] →
      (∀ c ∈ N, c ≠ '"' ∧ c ≠ ';' ∧ c ≠ '\n' ∧ c ≠ '*') →
      parse_content_disposition
          (String.mk ("attachment; filename=".data ++ ('"' :: (N ++ ['"'])))) =
        some (String.mk (pyUnquoteL (pyStripQuotesL N))))
    ∧ (∀ V : List Char, V ≠ [] → (∀ c ∈ V, c ≠ '\n') →
      parse_content_disposition
          (String.mk ("attachment; filename*=UTF-8".data ++
            aposChar :: aposChar :: V)) =
        some (String.mk (pyStripQuotesL (pyUnquoteL V))))
    ∧ parse_content_disposition "" = none := by
  refine ⟨?_, ?_, rfl⟩
  · intro N hne hok
    have hcd : String.mk ("attachment; filename=".data ++ ('"' :: (N ++ ['"']))) ≠
        "" := by
      rw [show ("attachment; filename=".data ++ ('"' :: (N ++ ['"']))) =
        'a' :: ("ttachment; filename=".data ++ ('"' :: (N ++ ['"']))) from rfl]
      exact stringMk_cons_ne_empty _ _
    unfold parse_content_disposition
    rw [if_neg hcd, stringData_mk, parseCDL_quoted N hne hok]
    rfl
  · intro V hne hnl
    have hcd : String.mk ("attachment; filename*=UTF-8".data ++
        aposChar :: aposChar :: V) ≠ "" := by
      rw [show ("attachment; filename*=UTF-8".data ++
        aposChar :: aposChar :: V) =
        'a' :: ("ttachment; filename*=UTF-8".data ++
          aposChar :: aposChar :: V) from rfl]
      exact stringMk_cons_ne_empty _ _
    unfold parse_content_disposition
    rw [if_neg hcd, stringData_mk, parseCDL_rfc5987 V hne hnl]
    rfl

/-- Witness for C5's amended theorem at the concrete header
`attachment; filename="report.txt"`. -/
theorem parse_content_disposition_amended_witness :
    parse_content_disposition
        (String.mk ("attachment; filename=".data ++
          ('"' :: ("report.txt".data ++ ['"'])))) =
      some (String.mk (pyUnquoteL (pyStripQuotesL "report.txt".data))) :=
  parse_content_disposition_amended.1 "report.txt".data (by decide) (by decide)
